import Mathlib

/-!
Verification of the SVAR (Simple Voice Activated Recorder) audio pipeline.

This file shallowly embeds the parts of the C sources that the checked
properties are about:

* `src/rbuf.c` — the single-producer / single-consumer ring buffer
  (`rbuf_init`, `rbuf_read_linear_capacity`, `rbuf_read_linear_commit`,
  `rbuf_write_linear_capacity`, `rbuf_write_linear_commit`);
* `src/recorder.c` — the producer loop `recorder_process`, the activation
  detector `recorder_monitor`, the consumer thread `recorder_thread` and the
  shutdown entry point `recorder_stop`;
* `src/writer.c`, `src/writer-mp3.c`, `src/writer-wav.c` — the writer
  open/close contracts.

Pointers into the buffer memory block are modelled as byte offsets from
`begin`, so `begin` is offset `0` and `end` is offset `nmemb * size`;
the pointer arithmetic of the C code is reproduced verbatim on those
offsets.  Machine integers are modelled as `Nat`/`Int`: none of the
modelled quantities can overflow `size_t` in the scenarios the claims
quantify over, and the C code itself assumes the same.
-/

namespace Svar

/-- `struct rbuf` (src/rbuf.h lines 14-28).  `head` and `tail` are byte
offsets from `begin`; the `begin` pointer itself is the constant offset `0`
and the `end` pointer is derived (`rbuf_end`), exactly as `rbuf_init`
establishes them.  `used` counts used elements, `nmemb` is the element
count, `size` the element size in bytes. -/
structure rbuf where
  head : Nat
  tail : Nat
  used : Nat
  nmemb : Nat
  size : Nat
deriving Repr, DecidableEq

/-- The `rb->end` pointer as a byte offset: `rbuf_init` (src/rbuf.c line 18)
sets it to `begin + nmemb * size` and no operation ever changes it. -/
def rbuf_end (rb : rbuf) : Nat := rb.nmemb * rb.size

/-- `rbuf_init` (src/rbuf.c lines 12-23) on the success path of `malloc`:
`head = tail = begin`, `used = 0`.  Allocation failure returns `-1` in C and
is outside the state model. -/
def rbuf_init (nmemb size : Nat) : rbuf :=
  { head := 0, tail := 0, used := 0, nmemb := nmemb, size := size }

/-- `rbuf_read_linear_capacity` (src/rbuf.c lines 31-37). -/
def rbuf_read_linear_capacity (rb : rbuf) : Nat :=
  if rb.head < rb.tail then (rb.tail - rb.head) / rb.size
  else
    let nmemb := (rbuf_end rb - rb.head) / rb.size
    if rb.used = 0 then 0 else nmemb

/-- `rbuf_read_linear_commit` (src/rbuf.c lines 44-49): advance `head` by
`nmemb` elements, wrap to `begin` when it reaches `end`, decrement `used`. -/
def rbuf_read_linear_commit (rb : rbuf) (nmemb : Nat) : rbuf :=
  let head := rb.head + nmemb * rb.size
  { rb with head := if head = rbuf_end rb then 0 else head, used := rb.used - nmemb }

/-- `rbuf_write_linear_capacity` (src/rbuf.c lines 53-59). -/
def rbuf_write_linear_capacity (rb : rbuf) : Nat :=
  if rb.tail < rb.head then (rb.head - rb.tail) / rb.size
  else
    let nmemb := (rbuf_end rb - rb.tail) / rb.size
    if rb.used = rb.nmemb then 0 else nmemb

/-- `rbuf_write_linear_commit` (src/rbuf.c lines 66-71): advance `tail` by
`nmemb` elements, wrap to `begin` when it reaches `end`, increment `used`. -/
def rbuf_write_linear_commit (rb : rbuf) (nmemb : Nat) : rbuf :=
  let tail := rb.tail + nmemb * rb.size
  { rb with tail := if tail = rbuf_end rb then 0 else tail, used := rb.used + nmemb }

/-- Well-formedness of a ring buffer state: both pointers sit on element
boundaries strictly inside the memory block, at most `nmemb` elements are
used, and the write pointer is the read pointer advanced by `used` elements
modulo the capacity.  Every state reachable from `rbuf_init` by in-capacity
commits satisfies this. -/
def rbuf_inv (rb : rbuf) : Prop :=
  0 < rb.size ∧ 0 < rb.nmemb ∧ rb.used ≤ rb.nmemb ∧
    ∃ hd tl : Nat,
      rb.head = hd * rb.size ∧ rb.tail = tl * rb.size ∧
      hd < rb.nmemb ∧ tl < rb.nmemb ∧ tl = (hd + rb.used) % rb.nmemb

theorem rbuf_inv_init {nmemb size : Nat} (hn : 0 < nmemb) (hs : 0 < size) :
    rbuf_inv (rbuf_init nmemb size) := by
  refine ⟨hs, hn, Nat.zero_le _, 0, 0, by simp [rbuf_init], by simp [rbuf_init], hn, hn, ?_⟩
  simp [rbuf_init]

/-- Reduction of `a % n` when `a < 2 * n`. -/
theorem mod_two_cases {a n : Nat} (h : a < 2 * n) :
    a % n = if a < n then a else a - n := by
  split
  · exact Nat.mod_eq_of_lt (by omega)
  · rw [Nat.mod_eq_sub_mod (by omega), Nat.mod_eq_of_lt (by omega)]

/-- Element-count form of `rbuf_read_linear_capacity`: with `head = hd * size`
and `tail = tl * size` the byte arithmetic reduces to element arithmetic. -/
theorem rbuf_read_linear_capacity_elems (rb : rbuf) (hd tl : Nat)
    (hs : 0 < rb.size) (hh : rb.head = hd * rb.size) (ht : rb.tail = tl * rb.size) :
    rbuf_read_linear_capacity rb =
      if hd < tl then tl - hd else if rb.used = 0 then 0 else rb.nmemb - hd := by
  unfold rbuf_read_linear_capacity rbuf_end
  rw [hh, ht, ← Nat.sub_mul, ← Nat.sub_mul, Nat.mul_div_cancel _ hs,
    Nat.mul_div_cancel _ hs]
  simp only [Nat.mul_lt_mul_right hs]

/-- Element-count form of `rbuf_write_linear_capacity`. -/
theorem rbuf_write_linear_capacity_elems (rb : rbuf) (hd tl : Nat)
    (hs : 0 < rb.size) (hh : rb.head = hd * rb.size) (ht : rb.tail = tl * rb.size) :
    rbuf_write_linear_capacity rb =
      if tl < hd then hd - tl else if rb.used = rb.nmemb then 0 else rb.nmemb - tl := by
  unfold rbuf_write_linear_capacity rbuf_end
  rw [hh, ht, ← Nat.sub_mul, ← Nat.sub_mul, Nat.mul_div_cancel _ hs,
    Nat.mul_div_cancel _ hs]
  simp only [Nat.mul_lt_mul_right hs]

theorem mul_eq_mul_right_cancel {a b c : Nat} (hc : 0 < c) :
    a * c = b * c ↔ a = b := by
  constructor
  · exact fun h => Nat.eq_of_mul_eq_mul_right hc h
  · intro h; rw [h]

/-- The write linear capacity never exceeds the free space `nmemb - used`. -/
theorem rbuf_write_linear_capacity_le (rb : rbuf) (h : rbuf_inv rb) :
    rbuf_write_linear_capacity rb ≤ rb.nmemb - rb.used := by
  obtain ⟨hs, hnm, hu, hd, tl, hh, ht, hhd, htl, hmod⟩ := h
  rw [rbuf_write_linear_capacity_elems rb hd tl hs hh ht]
  rw [mod_two_cases (by omega)] at hmod
  split_ifs at hmod <;> split_ifs <;> omega

/-- The read linear capacity never exceeds the number of used elements. -/
theorem rbuf_read_linear_capacity_le (rb : rbuf) (h : rbuf_inv rb) :
    rbuf_read_linear_capacity rb ≤ rb.used := by
  obtain ⟨hs, hnm, hu, hd, tl, hh, ht, hhd, htl, hmod⟩ := h
  rw [rbuf_read_linear_capacity_elems rb hd tl hs hh ht]
  rw [mod_two_cases (by omega)] at hmod
  split_ifs at hmod <;> split_ifs <;> omega

/-- A write commit bounded by the linear write capacity preserves the ring
buffer invariant. -/
theorem rbuf_inv_write_commit (rb : rbuf) (n : Nat) (h : rbuf_inv rb)
    (hn : n ≤ rbuf_write_linear_capacity rb) :
    rbuf_inv (rbuf_write_linear_commit rb n) := by
  obtain ⟨hs, hnm, hu, hd, tl, hh, ht, hhd, htl, hmod⟩ := h
  rw [rbuf_write_linear_capacity_elems rb hd tl hs hh ht] at hn
  rw [mod_two_cases (by omega)] at hmod
  refine ⟨hs, hnm, ?_, hd, if tl + n = rb.nmemb then 0 else tl + n, hh, ?_, hhd, ?_, ?_⟩
  · simp only [rbuf_write_linear_commit]
    split_ifs at hmod <;> split_ifs at hn <;> omega
  · simp only [rbuf_write_linear_commit, rbuf_end, ht, ← Nat.add_mul]
    by_cases hc : tl + n = rb.nmemb
    · have hc2 : (tl + n) * rb.size = rb.nmemb * rb.size := by rw [hc]
      simp [hc, hc2]
    · have hc2 : (tl + n) * rb.size ≠ rb.nmemb * rb.size :=
        fun hEq => hc (Nat.eq_of_mul_eq_mul_right hs hEq)
      simp [hc, hc2]
  · simp only [rbuf_write_linear_commit]
    split_ifs at hmod <;> split_ifs at hn <;> split_ifs <;> omega
  · simp only [rbuf_write_linear_commit]
    rw [mod_two_cases (a := hd + (rb.used + n)) (by split_ifs at hmod <;> split_ifs at hn <;> omega)]
    split_ifs at hmod <;> split_ifs at hn <;> split_ifs <;> omega

/-- A read commit bounded by the linear read capacity preserves the ring
buffer invariant. -/
theorem rbuf_inv_read_commit (rb : rbuf) (n : Nat) (h : rbuf_inv rb)
    (hn : n ≤ rbuf_read_linear_capacity rb) :
    rbuf_inv (rbuf_read_linear_commit rb n) := by
  obtain ⟨hs, hnm, hu, hd, tl, hh, ht, hhd, htl, hmod⟩ := h
  rw [rbuf_read_linear_capacity_elems rb hd tl hs hh ht] at hn
  rw [mod_two_cases (by omega)] at hmod
  refine ⟨hs, hnm, by simp only [rbuf_read_linear_commit]; omega,
    if hd + n = rb.nmemb then 0 else hd + n, tl, ?_, ht, ?_, htl, ?_⟩
  · simp only [rbuf_read_linear_commit, rbuf_end, hh, ← Nat.add_mul]
    by_cases hc : hd + n = rb.nmemb
    · have hc2 : (hd + n) * rb.size = rb.nmemb * rb.size := by rw [hc]
      simp [hc, hc2]
    · have hc2 : (hd + n) * rb.size ≠ rb.nmemb * rb.size :=
        fun hEq => hc (Nat.eq_of_mul_eq_mul_right hs hEq)
      simp [hc, hc2]
  · simp only [rbuf_read_linear_commit]
    split_ifs at hmod <;> split_ifs at hn <;> split_ifs <;> omega
  · simp only [rbuf_read_linear_commit]
    rw [mod_two_cases (a := (if hd + n = rb.nmemb then 0 else hd + n) + (rb.used - n))
      (by split_ifs at hmod <;> split_ifs at hn <;> split_ifs <;> omega)]
    split_ifs at hmod <;> split_ifs at hn <;> split_ifs <;> omega

/-- One commit operation of the ring buffer API: either a
`rbuf_write_linear_commit` or a `rbuf_read_linear_commit` of `n` elements. -/
inductive rbuf_op where
  | write (n : Nat)
  | read (n : Nat)
deriving Repr, DecidableEq

/-- Apply one commit operation to a ring buffer state. -/
def rbuf_step (rb : rbuf) : rbuf_op → rbuf
  | .write n => rbuf_write_linear_commit rb n
  | .read n => rbuf_read_linear_commit rb n

/-- Apply a sequence of commit operations, first operation first. -/
def rbuf_run (rb : rbuf) : List rbuf_op → rbuf
  | [] => rb
  | op :: ops => rbuf_run (rbuf_step rb op) ops

/-- The caller contract of rbuf.c (comments at lines 39-43 and 61-65): each
commit is at most the linear capacity of the matching side, queried at the
point of the commit. -/
def rbuf_ops_ok (rb : rbuf) : List rbuf_op → Bool
  | [] => true
  | .write n :: ops =>
      decide (n ≤ rbuf_write_linear_capacity rb) && rbuf_ops_ok (rbuf_step rb (.write n)) ops
  | .read n :: ops =>
      decide (n ≤ rbuf_read_linear_capacity rb) && rbuf_ops_ok (rbuf_step rb (.read n)) ops

/-- Elements written by one operation. -/
def op_writes : rbuf_op → Nat
  | .write n => n
  | .read _ => 0

/-- Elements read by one operation. -/
def op_reads : rbuf_op → Nat
  | .read n => n
  | .write _ => 0

/-- Cumulative written elements of a sequence. -/
def cum_writes (ops : List rbuf_op) : Nat := (ops.map op_writes).sum

/-- Cumulative read elements of a sequence. -/
def cum_reads (ops : List rbuf_op) : Nat := (ops.map op_reads).sum

/-- The side condition of the claim: starting from a balance of `bal` used
elements, cumulative writes minus cumulative reads stays within
`[0, nmemb]` at every step. -/
def rbuf_balanced_from (nmemb bal : Nat) : List rbuf_op → Bool
  | [] => true
  | .write n :: ops => decide (bal + n ≤ nmemb) && rbuf_balanced_from nmemb (bal + n) ops
  | .read n :: ops => decide (n ≤ bal) && rbuf_balanced_from nmemb (bal - n) ops

/-- A valid run from an invariant state ends in an invariant state. -/
theorem rbuf_inv_run (ops : List rbuf_op) (rb : rbuf) (h : rbuf_inv rb)
    (hok : rbuf_ops_ok rb ops = true) : rbuf_inv (rbuf_run rb ops) := by
  induction ops generalizing rb with
  | nil => exact h
  | cons op ops ih =>
    cases op with
    | write n =>
      simp only [rbuf_ops_ok, Bool.and_eq_true, decide_eq_true_eq] at hok
      exact ih _ (rbuf_inv_write_commit rb n h hok.1) hok.2
    | read n =>
      simp only [rbuf_ops_ok, Bool.and_eq_true, decide_eq_true_eq] at hok
      exact ih _ (rbuf_inv_read_commit rb n h hok.1) hok.2

/-- Commit operations never change the `nmemb` and `size` fields. -/
theorem rbuf_run_nmemb_size (ops : List rbuf_op) (rb : rbuf) :
    (rbuf_run rb ops).nmemb = rb.nmemb ∧ (rbuf_run rb ops).size = rb.size := by
  induction ops generalizing rb with
  | nil => exact ⟨rfl, rfl⟩
  | cons op ops ih =>
    cases op <;>
      simpa [rbuf_run, rbuf_step, rbuf_write_linear_commit, rbuf_read_linear_commit]
        using ih _

/-- Accounting of `used` along a valid run: the final `used` plus everything
read equals the initial `used` plus everything written. -/
theorem rbuf_run_used (ops : List rbuf_op) (rb : rbuf) (h : rbuf_inv rb)
    (hok : rbuf_ops_ok rb ops = true) :
    (rbuf_run rb ops).used + cum_reads ops = rb.used + cum_writes ops := by
  induction ops generalizing rb with
  | nil => simp [rbuf_run, cum_reads, cum_writes]
  | cons op ops ih =>
    cases op with
    | write n =>
      simp only [rbuf_ops_ok, Bool.and_eq_true, decide_eq_true_eq] at hok
      have hu : (rbuf_write_linear_commit rb n).used = rb.used + n := rfl
      have := ih _ (rbuf_inv_write_commit rb n h hok.1) hok.2
      rw [hu] at this
      simp only [rbuf_run, rbuf_step, cum_reads, cum_writes, List.map_cons, List.sum_cons,
        op_reads, op_writes] at this ⊢
      omega
    | read n =>
      simp only [rbuf_ops_ok, Bool.and_eq_true, decide_eq_true_eq] at hok
      have hle : n ≤ rb.used := le_trans hok.1 (rbuf_read_linear_capacity_le rb h)
      have hu : (rbuf_read_linear_commit rb n).used = rb.used - n := rfl
      have := ih _ (rbuf_inv_read_commit rb n h hok.1) hok.2
      rw [hu] at this
      simp only [rbuf_run, rbuf_step, cum_reads, cum_writes, List.map_cons, List.sum_cons,
        op_reads, op_writes] at this ⊢
      omega

/-- The two linear capacities sum to at most `nmemb`, with equality exactly
when one of the pointers sits at the start of the buffer. -/
theorem rbuf_linear_capacity_sum (rb : rbuf) (h : rbuf_inv rb) :
    rbuf_read_linear_capacity rb + rbuf_write_linear_capacity rb ≤ rb.nmemb ∧
      (rbuf_read_linear_capacity rb + rbuf_write_linear_capacity rb = rb.nmemb ↔
        (rb.head = 0 ∨ rb.tail = 0)) := by
  obtain ⟨hs, hnm, hu, hd, tl, hh, ht, hhd, htl, hmod⟩ := h
  rw [rbuf_read_linear_capacity_elems rb hd tl hs hh ht,
    rbuf_write_linear_capacity_elems rb hd tl hs hh ht]
  rw [mod_two_cases (by omega)] at hmod
  have hh0 : rb.head = 0 ↔ hd = 0 := by
    rw [hh]
    constructor
    · intro h0
      rcases Nat.mul_eq_zero.mp h0 with h0 | h0
      · exact h0
      · omega
    · intro h0
      simp [h0]
  have ht0 : rb.tail = 0 ↔ tl = 0 := by
    rw [ht]
    constructor
    · intro h0
      rcases Nat.mul_eq_zero.mp h0 with h0 | h0
      · exact h0
      · omega
    · intro h0
      simp [h0]
  rw [hh0, ht0]
  split_ifs at hmod <;> split_ifs <;> constructor <;> omega

/-- C1: the claimed invariant fails on the code.  From `rbuf_init 8 1`,
the sequence "write 5 elements, read 5 elements" keeps every commit within
the linear capacity queried at that point and keeps cumulative writes minus
cumulative reads within `[0, nmemb]`, and `used` does equal the running
difference; yet in the final state `rbuf_read_linear_capacity` returns `0`
and `rbuf_write_linear_capacity` returns `3`, while `nmemb - used = 8`, so
`read_linear_capacity + write_linear_capacity ≥ nmemb - used` is violated
(both pointers stand at offset 5, so only 3 elements are linearly reachable
before the wrap point). -/
theorem C1_counter_invariant_counterexample :
    rbuf_ops_ok (rbuf_init 8 1) [rbuf_op.write 5, rbuf_op.read 5] = true ∧
    rbuf_balanced_from 8 0 [rbuf_op.write 5, rbuf_op.read 5] = true ∧
    (rbuf_run (rbuf_init 8 1) [rbuf_op.write 5, rbuf_op.read 5]).used =
      cum_writes [rbuf_op.write 5, rbuf_op.read 5] -
        cum_reads [rbuf_op.write 5, rbuf_op.read 5] ∧
    ¬ (rbuf_read_linear_capacity (rbuf_run (rbuf_init 8 1) [rbuf_op.write 5, rbuf_op.read 5]) +
        rbuf_write_linear_capacity (rbuf_run (rbuf_init 8 1) [rbuf_op.write 5, rbuf_op.read 5]) ≥
        8 - (rbuf_run (rbuf_init 8 1) [rbuf_op.write 5, rbuf_op.read 5]).used) := by
  decide

/-- C1 (amended): for every sequence of `rbuf_write_linear_commit` and
`rbuf_read_linear_commit` operations starting from `rbuf_init nmemb size`
in which each commit is at most the corresponding linear capacity queried
at that point, cumulative writes minus cumulative reads automatically stays
within `[0, nmemb]`, the field `used` equals cumulative writes minus
cumulative reads after every step, and `rbuf_read_linear_capacity() +
rbuf_write_linear_capacity() ≤ nmemb` holds after every step, with exact
equality precisely when `head` or `tail` sits at the start of the memory
block (no wrap pending before that pointer). -/
theorem C1_counter_invariant_amended (nmemb size : Nat) (ops : List rbuf_op)
    (hn : 0 < nmemb) (hs : 0 < size)
    (hok : rbuf_ops_ok (rbuf_init nmemb size) ops = true) :
    cum_reads ops ≤ cum_writes ops ∧
    cum_writes ops - cum_reads ops ≤ nmemb ∧
    (rbuf_run (rbuf_init nmemb size) ops).used = cum_writes ops - cum_reads ops ∧
    rbuf_read_linear_capacity (rbuf_run (rbuf_init nmemb size) ops) +
      rbuf_write_linear_capacity (rbuf_run (rbuf_init nmemb size) ops) ≤ nmemb ∧
    (rbuf_read_linear_capacity (rbuf_run (rbuf_init nmemb size) ops) +
        rbuf_write_linear_capacity (rbuf_run (rbuf_init nmemb size) ops) = nmemb ↔
      ((rbuf_run (rbuf_init nmemb size) ops).head = 0 ∨
        (rbuf_run (rbuf_init nmemb size) ops).tail = 0)) := by
  have hinv0 := rbuf_inv_init hn hs
  have hinvf := rbuf_inv_run ops _ hinv0 hok
  have husa := rbuf_run_used ops _ hinv0 hok
  have hnms := (rbuf_run_nmemb_size ops (rbuf_init nmemb size)).1
  have hsum := rbuf_linear_capacity_sum _ hinvf
  rw [hnms] at hsum
  obtain ⟨-, -, huse, -⟩ := hinvf
  rw [hnms] at huse
  have h0 : (rbuf_init nmemb size).used = 0 := rfl
  rw [h0] at husa
  have hc : (rbuf_run (rbuf_init nmemb size) ops).used = cum_writes ops - cum_reads ops := by
    omega
  exact ⟨by omega, by rw [← hc]; exact huse, hc, hsum.1, hsum.2⟩

/-- C1 witness: the amended invariant evaluated on the concrete run
"write 3, read 2" from `rbuf_init 8 1`. -/
theorem C1_counter_invariant_amended_witness :
    cum_reads [rbuf_op.write 3, rbuf_op.read 2] ≤ cum_writes [rbuf_op.write 3, rbuf_op.read 2] ∧
    cum_writes [rbuf_op.write 3, rbuf_op.read 2] -
      cum_reads [rbuf_op.write 3, rbuf_op.read 2] ≤ 8 ∧
    (rbuf_run (rbuf_init 8 1) [rbuf_op.write 3, rbuf_op.read 2]).used =
      cum_writes [rbuf_op.write 3, rbuf_op.read 2] -
        cum_reads [rbuf_op.write 3, rbuf_op.read 2] ∧
    rbuf_read_linear_capacity (rbuf_run (rbuf_init 8 1) [rbuf_op.write 3, rbuf_op.read 2]) +
      rbuf_write_linear_capacity (rbuf_run (rbuf_init 8 1) [rbuf_op.write 3, rbuf_op.read 2]) ≤ 8 ∧
    (rbuf_read_linear_capacity (rbuf_run (rbuf_init 8 1) [rbuf_op.write 3, rbuf_op.read 2]) +
        rbuf_write_linear_capacity (rbuf_run (rbuf_init 8 1) [rbuf_op.write 3, rbuf_op.read 2]) = 8 ↔
      ((rbuf_run (rbuf_init 8 1) [rbuf_op.write 3, rbuf_op.read 2]).head = 0 ∨
        (rbuf_run (rbuf_init 8 1) [rbuf_op.write 3, rbuf_op.read 2]).tail = 0)) :=
  C1_counter_invariant_amended 8 1 [rbuf_op.write 3, rbuf_op.read 2]
    (by decide) (by decide) (by decide)

/-- C4: for every well-formed ring buffer state, `rbuf_write_linear_capacity`
returns `0` exactly when the buffer is full (`used = nmemb`) and
`rbuf_read_linear_capacity` returns `0` exactly when the buffer is empty
(`used = 0`); at the ambiguous coincidence `head = tail` the `used` field
disambiguates: empty gives read capacity `0` and positive write capacity,
full gives write capacity `0` and positive read capacity. -/
theorem C4_empty_full_disambiguation (rb : rbuf) (h : rbuf_inv rb) :
    (rbuf_write_linear_capacity rb = 0 ↔ rb.used = rb.nmemb) ∧
    (rbuf_read_linear_capacity rb = 0 ↔ rb.used = 0) ∧
    (rb.head = rb.tail →
      (rb.used = 0 →
        rbuf_read_linear_capacity rb = 0 ∧ 0 < rbuf_write_linear_capacity rb) ∧
      (rb.used = rb.nmemb →
        rbuf_write_linear_capacity rb = 0 ∧ 0 < rbuf_read_linear_capacity rb)) := by
  obtain ⟨hs, hnm, hu, hd, tl, hh, ht, hhd, htl, hmod⟩ := h
  rw [rbuf_read_linear_capacity_elems rb hd tl hs hh ht,
    rbuf_write_linear_capacity_elems rb hd tl hs hh ht]
  have hht : rb.head = rb.tail ↔ hd = tl := by
    rw [hh, ht, mul_eq_mul_right_cancel hs]
  rw [hht]
  rw [mod_two_cases (by omega)] at hmod
  split_ifs at hmod <;> split_ifs <;> omega

/-- The ring buffer element count chosen by `recorder_new`
(src/recorder.c lines 58-59): `channels * (rate / 10) * 8` elements of one
sample each. -/
def recorder_new_rb_nmemb (channels rate : Nat) : Nat :=
  channels * (rate / 10) * 8

/-- Element count of one commit operation. -/
def op_count : rbuf_op → Nat
  | .write n => n
  | .read n => n

/-- All commits of the sequence are whole frames: multiples of the channel
count, as both `recorder_process` for whole-frame chunks and the ALSA
capture loop (`frames * r->channels`, src/recorder-alsa.c line 174)
produce. -/
def rbuf_ops_frame_aligned (channels : Nat) (ops : List rbuf_op) : Bool :=
  ops.all fun op => decide (channels ∣ op_count op)

/-- `rbuf_inv` strengthened with frame alignment: the capacity and both
pointer element-indices are multiples of the channel count. -/
def rbuf_inv_aligned (ch : Nat) (rb : rbuf) : Prop :=
  0 < rb.size ∧ 0 < rb.nmemb ∧ rb.used ≤ rb.nmemb ∧ ch ∣ rb.nmemb ∧
    ∃ hd tl : Nat,
      rb.head = hd * rb.size ∧ rb.tail = tl * rb.size ∧
      hd < rb.nmemb ∧ tl < rb.nmemb ∧ tl = (hd + rb.used) % rb.nmemb ∧
      ch ∣ hd ∧ ch ∣ tl

theorem rbuf_inv_aligned_init {ch nmemb size : Nat} (hn : 0 < nmemb) (hs : 0 < size)
    (hdvd : ch ∣ nmemb) : rbuf_inv_aligned ch (rbuf_init nmemb size) := by
  refine ⟨hs, hn, Nat.zero_le _, hdvd, 0, 0, by simp [rbuf_init], by simp [rbuf_init],
    hn, hn, ?_, Nat.dvd_zero _, Nat.dvd_zero _⟩
  simp [rbuf_init]

/-- An aligned write commit preserves the alignment invariant. -/
theorem rbuf_inv_aligned_write_commit (ch : Nat) (rb : rbuf) (n : Nat)
    (h : rbuf_inv_aligned ch rb) (hn : n ≤ rbuf_write_linear_capacity rb)
    (hdn : ch ∣ n) : rbuf_inv_aligned ch (rbuf_write_linear_commit rb n) := by
  obtain ⟨hs, hnm, hu, hdc, hd, tl, hh, ht, hhd, htl, hmod, hdh, hdt⟩ := h
  rw [rbuf_write_linear_capacity_elems rb hd tl hs hh ht] at hn
  rw [mod_two_cases (by omega)] at hmod
  refine ⟨hs, hnm, ?_, hdc, hd, if tl + n = rb.nmemb then 0 else tl + n, hh, ?_, hhd,
    ?_, ?_, hdh, ?_⟩
  · simp only [rbuf_write_linear_commit]
    split_ifs at hmod <;> split_ifs at hn <;> omega
  · simp only [rbuf_write_linear_commit, rbuf_end, ht, ← Nat.add_mul]
    by_cases hc : tl + n = rb.nmemb
    · have hc2 : (tl + n) * rb.size = rb.nmemb * rb.size := by rw [hc]
      simp [hc, hc2]
    · have hc2 : (tl + n) * rb.size ≠ rb.nmemb * rb.size :=
        fun hEq => hc (Nat.eq_of_mul_eq_mul_right hs hEq)
      simp [hc, hc2]
  · simp only [rbuf_write_linear_commit]
    split_ifs at hmod <;> split_ifs at hn <;> split_ifs <;> omega
  · simp only [rbuf_write_linear_commit]
    rw [mod_two_cases (a := hd + (rb.used + n)) (by split_ifs at hmod <;> split_ifs at hn <;> omega)]
    split_ifs at hmod <;> split_ifs at hn <;> split_ifs <;> omega
  · split_ifs
    · exact Nat.dvd_zero _
    · exact Nat.dvd_add hdt hdn

/-- An aligned read commit preserves the alignment invariant. -/
theorem rbuf_inv_aligned_read_commit (ch : Nat) (rb : rbuf) (n : Nat)
    (h : rbuf_inv_aligned ch rb) (hn : n ≤ rbuf_read_linear_capacity rb)
    (hdn : ch ∣ n) : rbuf_inv_aligned ch (rbuf_read_linear_commit rb n) := by
  obtain ⟨hs, hnm, hu, hdc, hd, tl, hh, ht, hhd, htl, hmod, hdh, hdt⟩ := h
  rw [rbuf_read_linear_capacity_elems rb hd tl hs hh ht] at hn
  rw [mod_two_cases (by omega)] at hmod
  refine ⟨hs, hnm, by simp only [rbuf_read_linear_commit]; omega, hdc,
    if hd + n = rb.nmemb then 0 else hd + n, tl, ?_, ht, ?_, htl, ?_, ?_, hdt⟩
  · simp only [rbuf_read_linear_commit, rbuf_end, hh, ← Nat.add_mul]
    by_cases hc : hd + n = rb.nmemb
    · have hc2 : (hd + n) * rb.size = rb.nmemb * rb.size := by rw [hc]
      simp [hc, hc2]
    · have hc2 : (hd + n) * rb.size ≠ rb.nmemb * rb.size :=
        fun hEq => hc (Nat.eq_of_mul_eq_mul_right hs hEq)
      simp [hc, hc2]
  · simp only [rbuf_read_linear_commit]
    split_ifs at hmod <;> split_ifs at hn <;> split_ifs <;> omega
  · simp only [rbuf_read_linear_commit]
    rw [mod_two_cases (a := (if hd + n = rb.nmemb then 0 else hd + n) + (rb.used - n))
      (by split_ifs at hmod <;> split_ifs at hn <;> split_ifs <;> omega)]
    split_ifs at hmod <;> split_ifs at hn <;> split_ifs <;> omega
  · split_ifs
    · exact Nat.dvd_zero _
    · exact Nat.dvd_add hdh hdn

theorem rbuf_inv_aligned_inv {ch : Nat} {rb : rbuf} (h : rbuf_inv_aligned ch rb) :
    rbuf_inv rb := by
  obtain ⟨hs, hnm, hu, -, hd, tl, hh, ht, hhd, htl, hmod, -, -⟩ := h
  exact ⟨hs, hnm, hu, hd, tl, hh, ht, hhd, htl, hmod⟩

/-- A valid frame-aligned run preserves the alignment invariant. -/
theorem rbuf_inv_aligned_run (ch : Nat) (ops : List rbuf_op) (rb : rbuf)
    (h : rbuf_inv_aligned ch rb) (hok : rbuf_ops_ok rb ops = true)
    (hal : rbuf_ops_frame_aligned ch ops = true) :
    rbuf_inv_aligned ch (rbuf_run rb ops) := by
  induction ops generalizing rb with
  | nil => exact h
  | cons op ops ih =>
    simp only [rbuf_ops_frame_aligned, List.all_cons, Bool.and_eq_true,
      decide_eq_true_eq] at hal
    cases op with
    | write n =>
      simp only [rbuf_ops_ok, Bool.and_eq_true, decide_eq_true_eq] at hok
      exact ih _ (rbuf_inv_aligned_write_commit ch rb n h hok.1 hal.1) hok.2
        (by simpa [rbuf_ops_frame_aligned] using hal.2)
    | read n =>
      simp only [rbuf_ops_ok, Bool.and_eq_true, decide_eq_true_eq] at hok
      exact ih _ (rbuf_inv_aligned_read_commit ch rb n h hok.1 hal.1) hok.2
        (by simpa [rbuf_ops_frame_aligned] using hal.2)

/-- In an alignment-invariant state, the linear read capacity is a multiple
of the channel count. -/
theorem rbuf_read_linear_capacity_dvd (ch : Nat) (rb : rbuf)
    (h : rbuf_inv_aligned ch rb) : ch ∣ rbuf_read_linear_capacity rb := by
  obtain ⟨hs, hnm, hu, hdc, hd, tl, hh, ht, hhd, htl, hmod, hdh, hdt⟩ := h
  rw [rbuf_read_linear_capacity_elems rb hd tl hs hh ht]
  split_ifs
  · exact Nat.dvd_sub' hdt hdh
  · exact Nat.dvd_zero _
  · exact Nat.dvd_sub' hdc hdh

/-- C10: starting from a ring buffer whose capacity is a multiple of the
channel count — as allocated by `recorder_new`, whose
`channels * (rate/10) * 8` element count is such a multiple — every valid
run of whole-frame commits leaves `rbuf_read_linear_capacity` a multiple of
the channel count, so the consumer's frame count `samples / r->channels`
(src/recorder.c line 152) is exact: `(samples / channels) * channels`
recovers every sample of the linear run, and no sample of the run is
excluded from the write handed to the writer. -/
theorem C10_frame_alignment (channels rate nmemb size : Nat) (ops : List rbuf_op)
    (hn : 0 < nmemb) (hs : 0 < size)
    (hdvd : channels ∣ nmemb)
    (hok : rbuf_ops_ok (rbuf_init nmemb size) ops = true)
    (hal : rbuf_ops_frame_aligned channels ops = true) :
    channels ∣ recorder_new_rb_nmemb channels rate ∧
    channels ∣ rbuf_read_linear_capacity (rbuf_run (rbuf_init nmemb size) ops) ∧
    rbuf_read_linear_capacity (rbuf_run (rbuf_init nmemb size) ops) / channels * channels =
      rbuf_read_linear_capacity (rbuf_run (rbuf_init nmemb size) ops) := by
  have hinv := rbuf_inv_aligned_run channels ops (rbuf_init nmemb size)
    (rbuf_inv_aligned_init hn hs hdvd) hok hal
  have hcap := rbuf_read_linear_capacity_dvd channels _ hinv
  refine ⟨⟨(rate / 10) * 8, by rw [recorder_new_rb_nmemb, Nat.mul_assoc]⟩, hcap, ?_⟩
  exact Nat.div_mul_cancel hcap

/-- C10 witness: a whole-frame run on a stereo buffer of 8 elements:
write 3 frames (6 samples), read 1 frame, leaving a linear run of 2 frames
(4 samples), a multiple of the 2 channels. -/
theorem C10_frame_alignment_witness :
    2 ∣ recorder_new_rb_nmemb 2 44100 ∧
    2 ∣ rbuf_read_linear_capacity
        (rbuf_run (rbuf_init 8 2) [rbuf_op.write 6, rbuf_op.read 2]) ∧
    rbuf_read_linear_capacity
        (rbuf_run (rbuf_init 8 2) [rbuf_op.write 6, rbuf_op.read 2]) / 2 * 2 =
      rbuf_read_linear_capacity
        (rbuf_run (rbuf_init 8 2) [rbuf_op.write 6, rbuf_op.read 2]) :=
  C10_frame_alignment 2 44100 8 2 [rbuf_op.write 6, rbuf_op.read 2]
    (by decide) (by decide) (by decide) (by decide) (by decide)

/-- C4 witness: the disambiguation evaluated on the fresh state
`rbuf_init 4 2` (where `head = tail` and `used = 0`). -/
theorem C4_empty_full_disambiguation_witness :
    (rbuf_write_linear_capacity (rbuf_init 4 2) = 0 ↔
      (rbuf_init 4 2).used = (rbuf_init 4 2).nmemb) ∧
    (rbuf_read_linear_capacity (rbuf_init 4 2) = 0 ↔ (rbuf_init 4 2).used = 0) ∧
    ((rbuf_init 4 2).head = (rbuf_init 4 2).tail →
      ((rbuf_init 4 2).used = 0 →
        rbuf_read_linear_capacity (rbuf_init 4 2) = 0 ∧
          0 < rbuf_write_linear_capacity (rbuf_init 4 2)) ∧
      ((rbuf_init 4 2).used = (rbuf_init 4 2).nmemb →
        rbuf_write_linear_capacity (rbuf_init 4 2) = 0 ∧
          0 < rbuf_read_linear_capacity (rbuf_init 4 2))) :=
  C4_empty_full_disambiguation (rbuf_init 4 2) (rbuf_inv_init (by decide) (by decide))

/-! ## recorder_process (src/recorder.c lines 238-276) -/

/-- Externally visible side effects of the producer loop, in chronological
order: the overrun warning (`warn("PCM buffer overrun: ...")`, line 256,
emitted only when `r->verbose >= 1`) and the consumer wake-up
(`pthread_cond_signal`, line 271, once per committed slice). -/
inductive recorder_event where
  | warn_overrun
  | cond_signal
deriving Repr, DecidableEq

/-- The `while (samples > 0)` copy loop of `recorder_process`
(src/recorder.c lines 246-273).  Returns the final ring buffer state, the
number of samples of the chunk that were dropped, and the emitted events.
Each iteration queries `rbuf_write_linear_capacity`, breaks out (dropping
the remaining samples) when it is zero — warning when `verbose >= 1` —
and otherwise copies and commits `MIN(samples, capacity)` samples and
signals the condition variable.  The `memcpy` moves bytes only; sample
data content is not modelled. -/
def recorder_process_loop (verbose : Int) (rb : rbuf) (samples : Nat) :
    rbuf × Nat × List recorder_event :=
  if _h : samples = 0 then (rb, 0, [])
  else
    if _hc : rbuf_write_linear_capacity rb = 0 then
      (rb, samples, if 1 ≤ verbose then [recorder_event.warn_overrun] else [])
    else
      ((recorder_process_loop verbose
          (rbuf_write_linear_commit rb (min samples (rbuf_write_linear_capacity rb)))
          (samples - min samples (rbuf_write_linear_capacity rb))).1,
       (recorder_process_loop verbose
          (rbuf_write_linear_commit rb (min samples (rbuf_write_linear_capacity rb)))
          (samples - min samples (rbuf_write_linear_capacity rb))).2.1,
       recorder_event.cond_signal ::
         (recorder_process_loop verbose
            (rbuf_write_linear_commit rb (min samples (rbuf_write_linear_capacity rb)))
            (samples - min samples (rbuf_write_linear_capacity rb))).2.2)
termination_by samples
decreasing_by all_goals omega

/-- `recorder_process` (src/recorder.c lines 238-276): when the activation
detector classifies the chunk as not live (`recorder_monitor` nonzero) the
function returns `0` immediately without touching the buffer; for a live
chunk it runs the copy loop and returns `0` as well — overrun is never an
error.  Result: return value, final buffer, dropped samples, events. -/
def recorder_process (live : Bool) (verbose : Int) (rb : rbuf) (samples : Nat) :
    Int × rbuf × Nat × List recorder_event :=
  if live then (0, recorder_process_loop verbose rb samples)
  else (0, rb, 0, [])

/-- Behaviour of the copy loop: the drop count never exceeds the chunk, the
committed samples are exactly chunk minus dropped, a nonzero drop happens
only with the loop stopped at zero linear write capacity, and the overrun
warning is emitted exactly when samples were dropped with verbosity at
least 1. -/
theorem recorder_process_loop_spec (verbose : Int) :
    ∀ (samples : Nat) (rb : rbuf),
      (recorder_process_loop verbose rb samples).2.1 ≤ samples ∧
      (recorder_process_loop verbose rb samples).1.used =
        rb.used + (samples - (recorder_process_loop verbose rb samples).2.1) ∧
      ((recorder_process_loop verbose rb samples).2.1 ≠ 0 →
        rbuf_write_linear_capacity (recorder_process_loop verbose rb samples).1 = 0) ∧
      (recorder_event.warn_overrun ∈ (recorder_process_loop verbose rb samples).2.2 ↔
        1 ≤ verbose ∧ (recorder_process_loop verbose rb samples).2.1 ≠ 0) := by
  intro samples
  induction samples using Nat.strong_induction_on with
  | _ samples ih =>
    intro rb
    rw [recorder_process_loop.eq_def]
    by_cases h : samples = 0
    · simp [h]
    · rw [dif_neg h]
      by_cases hc : rbuf_write_linear_capacity rb = 0
      · rw [dif_pos hc]
        refine ⟨le_refl _, by simp only []; omega, fun _ => hc, ?_⟩
        split_ifs with hv <;> simp [hv, h]
      · rw [dif_neg hc]
        simp only []
        have hbatch : 0 < min samples (rbuf_write_linear_capacity rb) := by omega
        have hrec := ih (samples - min samples (rbuf_write_linear_capacity rb)) (by omega)
          (rbuf_write_linear_commit rb (min samples (rbuf_write_linear_capacity rb)))
        have hu : (rbuf_write_linear_commit rb
            (min samples (rbuf_write_linear_capacity rb))).used =
            rb.used + min samples (rbuf_write_linear_capacity rb) := rfl
        rw [hu] at hrec
        refine ⟨by omega, by omega, fun hne => hrec.2.2.1 hne, ?_⟩
        simp only [List.mem_cons, reduceCtorEq, false_or]
        exact hrec.2.2.2

/-- C2: for every live chunk of `samples` samples passed to
`recorder_process`, the chunk is copied into the ring buffer in successive
slices each bounded by the current `rbuf_write_linear_capacity`; when the
linear write capacity reaches zero mid-chunk the remaining samples are
dropped (the loop exits — the model is a total function, so the producer
never blocks waiting for space), the overrun warning is emitted exactly
when samples were dropped with verbosity at least 1, and the return value
is `0` regardless.  Concretely, committing 600 samples with head at offset
0, tail at offset 600 and 600 of 1000 elements used (400 linear write
capacity) produces exactly one commit of 400 followed by a drop of the 200
samples that still cannot fit after re-querying the capacity, with one
logged overrun at verbosity 1. -/
theorem C2_overrun_drop_policy :
    (∀ (verbose : Int) (rb : rbuf) (samples : Nat),
      (recorder_process true verbose rb samples).1 = 0 ∧
      (recorder_process_loop verbose rb samples).2.1 ≤ samples ∧
      (recorder_process_loop verbose rb samples).1.used =
        rb.used + (samples - (recorder_process_loop verbose rb samples).2.1) ∧
      ((recorder_process_loop verbose rb samples).2.1 ≠ 0 →
        rbuf_write_linear_capacity (recorder_process_loop verbose rb samples).1 = 0) ∧
      (recorder_event.warn_overrun ∈ (recorder_process_loop verbose rb samples).2.2 ↔
        1 ≤ verbose ∧ (recorder_process_loop verbose rb samples).2.1 ≠ 0)) ∧
    recorder_process true 1 ⟨0, 600, 600, 1000, 1⟩ 600 =
      (0, ⟨0, 0, 1000, 1000, 1⟩, 200,
        [recorder_event.cond_signal, recorder_event.warn_overrun]) := by
  constructor
  · intro verbose rb samples
    have hs := recorder_process_loop_spec verbose samples rb
    exact ⟨by simp [recorder_process], hs.1, hs.2.1, hs.2.2.1, hs.2.2.2⟩
  · show (0, recorder_process_loop 1 ⟨0, 600, 600, 1000, 1⟩ 600) = _
    rw [recorder_process_loop.eq_def]
    norm_num [rbuf_write_linear_capacity, rbuf_end, rbuf_write_linear_commit]
    rw [recorder_process_loop.eq_def]
    norm_num [rbuf_write_linear_capacity, rbuf_end]

/-- C2 witness: the general statement instantiated at verbosity 0, a fresh
4-element buffer and a 2-sample chunk. -/
theorem C2_overrun_drop_policy_witness :
    (recorder_process true 0 (rbuf_init 4 1) 2).1 = 0 ∧
    (recorder_process_loop 0 (rbuf_init 4 1) 2).2.1 ≤ 2 ∧
    (recorder_process_loop 0 (rbuf_init 4 1) 2).1.used =
      (rbuf_init 4 1).used + (2 - (recorder_process_loop 0 (rbuf_init 4 1) 2).2.1) ∧
    ((recorder_process_loop 0 (rbuf_init 4 1) 2).2.1 ≠ 0 →
      rbuf_write_linear_capacity (recorder_process_loop 0 (rbuf_init 4 1) 2).1 = 0) ∧
    (recorder_event.warn_overrun ∈ (recorder_process_loop 0 (rbuf_init 4 1) 2).2.2 ↔
      1 ≤ (0 : Int) ∧ (recorder_process_loop 0 (rbuf_init 4 1) 2).2.1 ≠ 0) :=
  C2_overrun_drop_policy.1 0 (rbuf_init 4 1) 2

/-! ## recorder_monitor (src/recorder.c lines 211-236) and pcm_rms_db -/

/-- Sum of squared samples, the `sum2` accumulator of `pcm_rms_u8` /
`pcm_rms_s16le` (src/pcm.c lines 33-49), over the (already centered)
sample values. -/
def pcm_sum2 (buf : List Int) : Int := (buf.map fun v => v * v).sum

/-- `pcm_rms_db` (src/pcm.c lines 53-75) on the branch the claims need:
when the buffer is empty or all samples are zero, `sum2 = 0`, so `rms = 0`,
the `rms > 0` branch is not taken and the initial `db = -96.0` is returned.
A buffer with a nonzero sum of squares goes through `sqrt`/`log10` on
doubles, which this model does not evaluate (`none`); the claims supply
the dB level of such chunks directly. -/
def pcm_rms_db_q (buf : List Int) : Option ℚ :=
  if pcm_sum2 buf = 0 then some (-96) else none

/-- `recorder_monitor` (src/recorder.c lines 211-236) as a function of the
chunk's RMS level in dB (the value `pcm_rms_db` computes), the current
monotonic time in ms, and the `activation_time` state (the function-local
static, in ms).  In monitor mode it dumps the RMS and returns `-2` without
touching the activation time.  Otherwise the activation time is refreshed
whenever the RMS strictly exceeds the threshold, and the chunk is live
(result `0`) exactly when the elapsed time since the last loud chunk is at
most the fadeout window; otherwise the result is `-1`.  (`ts_diff_ms` of
recorder.c lines 24-26 becomes plain subtraction of millisecond clocks;
the two back-to-back `clock_gettime` calls are merged into one instant.) -/
def recorder_monitor (monitor : Bool) (threshold_db : ℚ) (fadeout_ms : Int)
    (buffer_rms_db : ℚ) (now_ms : Int) (activation_time : Int) : Int × Int :=
  if monitor then (-2, activation_time)
  else
    let activation_time := if buffer_rms_db > threshold_db then now_ms else activation_time
    if now_ms - activation_time ≤ fadeout_ms then (0, activation_time)
    else (-1, activation_time)

/-- Feed a sequence of chunks — each a pair of (RMS level in dB, arrival
time in ms) — through `recorder_monitor`, threading the activation-time
state; returns the list of results and the final activation time. -/
def recorder_monitor_run (monitor : Bool) (threshold_db : ℚ) (fadeout_ms : Int) :
    List (ℚ × Int) → Int → List Int × Int
  | [], activation_time => ([], activation_time)
  | (db, now) :: rest, activation_time =>
      let r := recorder_monitor monitor threshold_db fadeout_ms db now activation_time
      let rr := recorder_monitor_run monitor threshold_db fadeout_ms rest r.2
      (r.1 :: rr.1, rr.2)

/-- C5: with activation threshold −50 dB and fadeout 500 ms, for a recorder
not in monitor mode, a chunk at −40 dB (strictly above the threshold, so it
records the current time) followed by 10 all-silent chunks (−96 dB, the
value `pcm_rms_db` returns for a zero buffer) arriving at 100 ms intervals
is classified live (result 0) for the loud chunk and the first 5 silent
chunks, and not live (result −1) from the 6th silent chunk onward. -/
theorem C5_activation_fadeout :
    pcm_rms_db_q [0, 0, 0, 0] = some (-96) ∧
    (recorder_monitor_run false (-50) 500
        ((-40, 0) :: (List.range 10).map fun k => ((-96 : ℚ), 100 * ((k : Int) + 1)))
        0).1 =
      [0, 0, 0, 0, 0, 0, -1, -1, -1, -1, -1] := by
  decide

/-! ## Shared activation state across recorder instances -/

/-- The per-instance configuration consulted by `recorder_monitor` /
`recorder_process` (fields of `struct recorder`, src/recorder.h). -/
structure recorder_params where
  monitor : Bool
  activation_threshold_level_db : ℚ
  activation_fadeout_time_ms : Int
deriving DecidableEq

/-- Process-wide state for two recorder instances.  `recorder_monitor`
declares `static struct timespec activation_time` (src/recorder.c line
216): a function-local static, hence ONE variable for the whole process,
shared by every instance; the ring buffers, by contrast, live inside each
`struct recorder`. -/
structure two_recorder_state where
  activation_time : Int
  rb1 : rbuf
  rb2 : rbuf
deriving DecidableEq

/-- `recorder_monitor` called on instance 1: reads the instance's own
parameters but reads and writes the process-shared activation time. -/
def recorder_monitor_on1 (p : recorder_params) (db : ℚ) (now : Int)
    (st : two_recorder_state) : Int × two_recorder_state :=
  let r := recorder_monitor p.monitor p.activation_threshold_level_db
    p.activation_fadeout_time_ms db now st.activation_time
  (r.1, { st with activation_time := r.2 })

/-- `recorder_monitor` called on instance 2. -/
def recorder_monitor_on2 (p : recorder_params) (db : ℚ) (now : Int)
    (st : two_recorder_state) : Int × two_recorder_state :=
  let r := recorder_monitor p.monitor p.activation_threshold_level_db
    p.activation_fadeout_time_ms db now st.activation_time
  (r.1, { st with activation_time := r.2 })

/-- `recorder_process` on instance 1 (src/recorder.c lines 238-276): run
the activation detector (which may update the shared activation time);
return 0 immediately for a non-live chunk, otherwise run the copy loop on
instance 1's own ring buffer. -/
def recorder_process_on1 (p : recorder_params) (verbose : Int) (db : ℚ) (now : Int)
    (samples : Nat) (st : two_recorder_state) : Int × two_recorder_state :=
  let m := recorder_monitor_on1 p db now st
  if m.1 ≠ 0 then (0, m.2)
  else (0, { m.2 with rb1 := (recorder_process_loop verbose m.2.rb1 samples).1 })

/-- `recorder_process` on instance 2. -/
def recorder_process_on2 (p : recorder_params) (verbose : Int) (db : ℚ) (now : Int)
    (samples : Nat) (st : two_recorder_state) : Int × two_recorder_state :=
  let m := recorder_monitor_on2 p db now st
  if m.1 ≠ 0 then (0, m.2)
  else (0, { m.2 with rb2 := (recorder_process_loop verbose m.2.rb2 samples).1 })

/-- C9: the independence claim fails on the code.  Both instances use
threshold −50 dB and fadeout 500 ms.  Instance 1 hears a loud chunk at
t = 10000 ms.  Without any activity on instance 2, a silent chunk on
instance 1 at t = 10600 ms is not live (elapsed 600 ms > 500 ms, result
−1).  But if instance 2 hears a loud chunk at t = 10300 ms in between —
touching nothing except the function-local static `activation_time` shared
by both instances, instance 1's ring buffer included — the same silent
chunk on instance 1 becomes live (elapsed 300 ms ≤ 500 ms, result 0):
invoking `recorder_monitor` on one instance changed the observable
behavior of the other. -/
theorem C9_instance_independence_counterexample :
    (recorder_monitor_on1 ⟨false, -50, 500⟩ (-96) 10600
        (recorder_monitor_on1 ⟨false, -50, 500⟩ (-40) 10000
          ⟨0, rbuf_init 4 1, rbuf_init 4 1⟩).2).1 = -1 ∧
    (recorder_monitor_on1 ⟨false, -50, 500⟩ (-96) 10600
        (recorder_monitor_on2 ⟨false, -50, 500⟩ (-40) 10300
          (recorder_monitor_on1 ⟨false, -50, 500⟩ (-40) 10000
            ⟨0, rbuf_init 4 1, rbuf_init 4 1⟩).2).2).1 = 0 ∧
    (recorder_monitor_on2 ⟨false, -50, 500⟩ (-40) 10300
        (recorder_monitor_on1 ⟨false, -50, 500⟩ (-40) 10000
          ⟨0, rbuf_init 4 1, rbuf_init 4 1⟩).2).2.rb1 =
      (recorder_monitor_on1 ⟨false, -50, 500⟩ (-40) 10000
        ⟨0, rbuf_init 4 1, rbuf_init 4 1⟩).2.rb1 := by
  decide

/-- C9 (amended): invoking `recorder_monitor` or `recorder_process` on one
instance leaves the other instance's ring buffer (its per-instance mutable
state) unchanged — but the activation timestamp is a function-local static
shared by every instance in the process, so a call on one instance can
change the activation classification of the other (as the counterexample
exhibits). -/
theorem C9_instance_independence_amended (p : recorder_params) (verbose : Int)
    (db : ℚ) (now : Int) (samples : Nat) (st : two_recorder_state) :
    (recorder_monitor_on1 p db now st).2.rb2 = st.rb2 ∧
    (recorder_monitor_on2 p db now st).2.rb1 = st.rb1 ∧
    (recorder_process_on1 p verbose db now samples st).2.rb2 = st.rb2 ∧
    (recorder_process_on2 p verbose db now samples st).2.rb1 = st.rb1 := by
  refine ⟨rfl, rfl, ?_, ?_⟩
  · simp only [recorder_process_on1]
    split <;> rfl
  · simp only [recorder_process_on2]
    split <;> rfl

/-! ## Writers (src/writer.c, src/writer-mp3.c, src/writer-wav.c) -/

/-- Externally visible actions a writer close/open performs on the
underlying libraries and file system. -/
inductive writer_effect where
  /-- `fclose(w->f)` / `fclose(w->fp)` -/
  | fclose
  /-- `lame_encode_flush` followed by `fwrite` of the flush block
  (writer-mp3.c lines 58-59) -/
  | lame_flush_write
  /-- `sf_close(w->sf)` (writer-wav.c line 40) -/
  | sf_close
  /-- `lame_get_id3v2_tag` + `fwrite` of the tag (writer-mp3.c lines 40-41) -/
  | write_id3_tag
deriving Repr, DecidableEq

/-- `struct writer_raw` together with the `opened` flag of the generic
`struct writer` (writer.c lines 14-17): `f : Option Unit` models the
`FILE * f` field, `some` when a stream is open. -/
structure writer_raw_state where
  opened : Bool
  f : Option Unit
deriving Repr, DecidableEq

/-- `writer_raw_close` (src/writer.c lines 35-42): clear `opened`; if the
stream is non-NULL, `fclose` it and set it to NULL. -/
def writer_raw_close (st : writer_raw_state) : writer_raw_state × List writer_effect :=
  match st.f with
  | some _ => (⟨false, none⟩, [writer_effect.fclose])
  | none => (⟨false, none⟩, [])

/-- `writer_raw_open` (src/writer.c lines 19-28), as written: close any
previous stream, then `w->f = fopen(pathname, "w")` — and `return -1` when
the result is NOT NULL, falling through to `opened = true; return 0` when
`fopen` FAILED.  `fopen_ok` abstracts whether `fopen` succeeds on the given
pathname.  Result: new state, return value, effects. -/
def writer_raw_open (st : writer_raw_state) (fopen_ok : Bool) :
    writer_raw_state × Int × List writer_effect :=
  let c := writer_raw_close st
  if fopen_ok then ({ opened := false, f := some () }, -1, c.2)
  else ({ opened := true, f := none }, 0, c.2)

/-- `struct writer_mp3` state: `fp : Option Unit` models `FILE * fp`. -/
structure writer_mp3_state where
  opened : Bool
  fp : Option Unit
deriving Repr, DecidableEq

/-- `writer_mp3_close` (src/writer-mp3.c lines 53-62): clear `opened`;
return if the stream is NULL; otherwise flush the encoder, write the flush
block, `fclose` and set the stream to NULL. -/
def writer_mp3_close (st : writer_mp3_state) : writer_mp3_state × List writer_effect :=
  match st.fp with
  | some _ => (⟨false, none⟩, [writer_effect.lame_flush_write, writer_effect.fclose])
  | none => (⟨false, none⟩, [])

/-- `writer_mp3_open` (src/writer-mp3.c lines 33-45): close any previous
stream; `fopen`; on failure return -1; on success write the ID3v2 tag, set
`opened` and return 0. -/
def writer_mp3_open (st : writer_mp3_state) (fopen_ok : Bool) :
    writer_mp3_state × Int × List writer_effect :=
  let c := writer_mp3_close st
  if fopen_ok then
    ({ opened := true, fp := some () }, 0, c.2 ++ [writer_effect.write_id3_tag])
  else ({ opened := false, fp := none }, -1, c.2)

/-- `struct writer_priv` of the sndfile-based writers: `sf : Option Unit`
models `SNDFILE * sf`. -/
structure writer_wav_state where
  opened : Bool
  sf : Option Unit
deriving Repr, DecidableEq

/-- `writer_close` (src/writer-wav.c lines 36-43): clear `opened`; if the
handle is non-NULL, `sf_close` it and set it to NULL. -/
def writer_wav_close (st : writer_wav_state) : writer_wav_state × List writer_effect :=
  match st.sf with
  | some _ => (⟨false, none⟩, [writer_effect.sf_close])
  | none => (⟨false, none⟩, [])

/-- `writer_open` (src/writer-wav.c lines 23-34): close any previous
handle; `sf_open`; on failure return -1; on success set `opened` and
return 0. -/
def writer_wav_open (st : writer_wav_state) (sf_open_ok : Bool) :
    writer_wav_state × Int × List writer_effect :=
  let c := writer_wav_close st
  if sf_open_ok then ({ opened := true, sf := some () }, 0, c.2)
  else ({ opened := false, sf := none }, -1, c.2)

/-- C6: the writer open contract fails for the raw writer.  On a fresh raw
writer, when `fopen` succeeds `writer_raw_open` returns -1 and leaves
`opened = false` (with the just-opened stream parked in `w->f`), and when
`fopen` fails it returns 0 and marks the writer opened with a NULL stream —
the exact inverse of the contract, caused by the inverted `!= NULL` check
at writer.c line 23.  The sibling variants (`writer_mp3_open`,
`writer_open` of writer-wav.c) honor the contract at the same inputs, and
every variant closes any previously open stream first. -/
theorem C6_writer_open_contract :
    (writer_raw_open ⟨false, none⟩ true).2.1 = -1 ∧
    (writer_raw_open ⟨false, none⟩ true).1.opened = false ∧
    (writer_raw_open ⟨false, none⟩ false).2.1 = 0 ∧
    (writer_raw_open ⟨false, none⟩ false).1.opened = true ∧
    (writer_mp3_open ⟨false, none⟩ true).2.1 = 0 ∧
    (writer_mp3_open ⟨false, none⟩ true).1.opened = true ∧
    (writer_mp3_open ⟨false, none⟩ false).2.1 = -1 ∧
    (writer_mp3_open ⟨false, none⟩ false).1.opened = false ∧
    (writer_wav_open ⟨false, none⟩ true).2.1 = 0 ∧
    (writer_wav_open ⟨false, none⟩ true).1.opened = true ∧
    (writer_wav_open ⟨false, none⟩ false).2.1 = -1 ∧
    (writer_wav_open ⟨false, none⟩ false).1.opened = false ∧
    (writer_raw_open ⟨true, some ()⟩ true).2.2 = [writer_effect.fclose] ∧
    (writer_mp3_open ⟨true, some ()⟩ true).2.2 =
      [writer_effect.lame_flush_write, writer_effect.fclose, writer_effect.write_id3_tag] ∧
    (writer_wav_open ⟨true, some ()⟩ true).2.2 = [writer_effect.sf_close] := by
  decide

/-- C8: for each writer variant and every writer state, closing twice
leaves the same state as closing once and the second close performs no
externally visible action (no error, no double finalization, no double
`fclose`), including on a never-opened writer (the fresh state produced by
`writer_raw_new` / `writer_mp3_new` / `writer_new`, with `opened = false`
and a NULL handle, closes to itself with no effects). -/
theorem C8_writer_close_idempotent :
    (∀ st : writer_raw_state,
      (writer_raw_close (writer_raw_close st).1).1 = (writer_raw_close st).1 ∧
      (writer_raw_close (writer_raw_close st).1).2 = []) ∧
    (∀ st : writer_mp3_state,
      (writer_mp3_close (writer_mp3_close st).1).1 = (writer_mp3_close st).1 ∧
      (writer_mp3_close (writer_mp3_close st).1).2 = []) ∧
    (∀ st : writer_wav_state,
      (writer_wav_close (writer_wav_close st).1).1 = (writer_wav_close st).1 ∧
      (writer_wav_close (writer_wav_close st).1).2 = []) ∧
    writer_raw_close ⟨false, none⟩ = (⟨false, none⟩, []) ∧
    writer_mp3_close ⟨false, none⟩ = (⟨false, none⟩, []) ∧
    writer_wav_close ⟨false, none⟩ = (⟨false, none⟩, []) := by
  refine ⟨fun st => ?_, fun st => ?_, fun st => ?_, rfl, rfl, rfl⟩
  · rcases st with ⟨o, f⟩
    cases f <;> simp [writer_raw_close]
  · rcases st with ⟨o, f⟩
    cases f <;> simp [writer_mp3_close]
  · rcases st with ⟨o, f⟩
    cases f <;> simp [writer_wav_close]

/-! ## Consumer thread: file rotation (src/recorder.c lines 107-158) -/

/-- The consumer-side state of `recorder_thread`: whether the writer has a
file open (`w->opened`), the time of the last write (`ts_last_write`, in
ms), and how many output files have been created so far. -/
structure consumer_state where
  opened : Bool
  ts_last_write : Int
  files : Nat
deriving Repr, DecidableEq

/-- One wake-up of `recorder_thread` at time `now` (ms).  On return from
`pthread_cond_wait` (line 113) the thread first performs the rotation
check (lines 116-123): when a split interval is configured, the writer is
open and the time since the last write exceeds the interval, the current
output file is closed.  When the wake finds data available the wait loop
exits and (lines 131-152) a new output file is created if — and only if —
none is open, then the chunk is written and the write timestamp recorded. -/
def recorder_thread_wake (split_ms : Int) (st : consumer_state) (now : Int)
    (has_data : Bool) : consumer_state :=
  let st :=
    if split_ms ≠ 0 ∧ st.opened ∧ now - st.ts_last_write > split_ms then
      { st with opened := false }
    else st
  if has_data then
    let st :=
      if ¬ st.opened then { st with opened := true, files := st.files + 1 } else st
    { st with ts_last_write := now }
  else st

/-- Fold a sequence of wake-ups (time, data-available) over the consumer
state. -/
def recorder_thread_wakes (split_ms : Int) (st : consumer_state) :
    List (Int × Bool) → consumer_state
  | [] => st
  | (now, d) :: rest => recorder_thread_wakes split_ms (recorder_thread_wake split_ms st now d) rest

/-- C7: a new output file is created by the consumer only when no file is
currently open (a wake increments the file count only if either no file
was open or the rotation check just closed it), and the open file is
closed proactively while waiting whenever a split interval is configured
and the time since the last write exceeds it.  Concretely, with a split
interval of 2000 ms the writer stays open across writes spaced 500 ms
apart (one file after writes at 0, 500 and 1000 ms), but a gap of 2500 ms
before the next write (at 3500 ms) closes the old file and opens a new one
on that write (two files in total). -/
theorem C7_file_rotation :
    (∀ (split_ms : Int) (st : consumer_state) (now : Int) (has_data : Bool),
      (recorder_thread_wake split_ms st now has_data).files ≠ st.files →
        (recorder_thread_wake split_ms st now has_data).files = st.files + 1 ∧
        has_data = true ∧
        (st.opened = false ∨ (split_ms ≠ 0 ∧ now - st.ts_last_write > split_ms))) ∧
    (∀ (split_ms : Int) (st : consumer_state) (now : Int),
      split_ms ≠ 0 → st.opened = true → now - st.ts_last_write > split_ms →
        (recorder_thread_wake split_ms st now false).opened = false ∧
        (recorder_thread_wake split_ms st now false).files = st.files) ∧
    recorder_thread_wakes 2000 ⟨false, 0, 0⟩ [(0, true), (500, true), (1000, true)] =
      ⟨true, 1000, 1⟩ ∧
    recorder_thread_wakes 2000 ⟨false, 0, 0⟩
        [(0, true), (500, true), (1000, true), (3500, true)] =
      ⟨true, 3500, 2⟩ := by
  refine ⟨?_, ?_, by decide, by decide⟩
  · intro split_ms st now has_data hne
    simp only [recorder_thread_wake] at hne ⊢
    split_ifs at hne ⊢ with h1 h2 h3 <;> simp_all
  · intro split_ms st now h1 h2 h3
    simp only [recorder_thread_wake]
    split_ifs with h4 <;> simp_all

/-- C7 witness: the rotation properties at concrete inputs — a wake with
data on a closed writer creates exactly one file, and a data-less wake at
2500 ms past the last write with split 2000 closes the file without
creating one. -/
theorem C7_file_rotation_witness :
    ((recorder_thread_wake 2000 ⟨false, 0, 0⟩ 0 true).files = 0 + 1 ∧
      true = true ∧
      ((false : Bool) = false ∨ ((2000 : Int) ≠ 0 ∧ (0 : Int) - 0 > 2000))) ∧
    ((recorder_thread_wake 2000 ⟨true, 0, 1⟩ 2500 false).opened = false ∧
      (recorder_thread_wake 2000 ⟨true, 0, 1⟩ 2500 false).files = 1) :=
  ⟨C7_file_rotation.1 2000 ⟨false, 0, 0⟩ 0 true (by decide),
   C7_file_rotation.2.1 2000 ⟨true, 0, 1⟩ 2500 (by decide) (by decide) (by decide)⟩

/-! ## Shutdown protocol (src/recorder.c lines 96-209) -/

/-- Protocol state of a running recorder: the `started` flag, whether the
backend capture loop is still running, whether the consumer thread is
blocked in `pthread_cond_wait`, whether it has exited its processing loop,
and the number of pending condition-variable wake-ups. -/
structure recorder_run_state where
  started : Bool
  backend_running : Bool
  consumer_waiting : Bool
  consumer_done : Bool
  signals : Nat
deriving Repr, DecidableEq

/-- `recorder_stop` (src/recorder.c lines 204-209): set `r->started =
false`, then invoke the backend stop — ALSA's stop is a no-op but its
capture loop re-checks `r->started` and exits (recorder-alsa.c line 148),
PipeWire's stop quits the main loop (recorder-pipewire.c line 205) — so
the backend loop is no longer running; return 0.  Calling it again changes
nothing. -/
def recorder_stop (st : recorder_run_state) : recorder_run_state × Int :=
  ({ st with started := false, backend_running := false }, 0)

/-- The epilogue of `recorder_start` (src/recorder.c lines 191-194): once
the backend's blocking `start` returns (its loop exited), `recorder_start`
sets `started = false` under the mutex and signals the condition variable
— the wake-up that reaches a consumer blocked on an empty buffer. -/
def recorder_start_epilogue (st : recorder_run_state) : recorder_run_state :=
  { st with started := false, signals := st.signals + 1 }

/-- One wake cycle of the consumer's wait loop (src/recorder.c lines
111-129): a pending signal makes `pthread_cond_wait` return and the guard
`r->started && rbuf_read_linear_capacity(&r->rb) == 0` is re-evaluated;
with `started` false the loop exits and the thread leaves its processing
loop (lines 128-129); with data available it proceeds to write; otherwise
it blocks again. -/
def consumer_wake_cycle (rcap : Nat) (st : recorder_run_state) : recorder_run_state :=
  if st.consumer_waiting ∧ 0 < st.signals then
    let st := { st with signals := st.signals - 1 }
    if ¬ st.started then { st with consumer_waiting := false, consumer_done := true }
    else if rcap = 0 then st
    else { st with consumer_waiting := false }
  else st

/-- C3: `recorder_stop` is idempotent (a second call produces the same
state and the same return value), it flips the running flag to false, and
the shutdown chain it triggers — backend loop exit, then the
`recorder_start` epilogue signalling the condition variable with `started`
already false — makes a consumer blocked on an empty ring buffer observe
termination on that single wake cycle instead of blocking again. -/
theorem C3_shutdown_wakeup (st : recorder_run_state) (rcap : Nat)
    (h : st.consumer_waiting = true) :
    recorder_stop (recorder_stop st).1 = recorder_stop st ∧
    (recorder_stop st).1.started = false ∧
    (recorder_stop st).2 = 0 ∧
    (consumer_wake_cycle rcap (recorder_start_epilogue (recorder_stop st).1)).consumer_done =
      true := by
  refine ⟨rfl, rfl, rfl, ?_⟩
  simp [consumer_wake_cycle, recorder_start_epilogue, recorder_stop, h]

/-- C3 witness: the shutdown chain evaluated from a running state with the
consumer blocked on an empty buffer and no pending signals. -/
theorem C3_shutdown_wakeup_witness :
    recorder_stop (recorder_stop ⟨true, true, true, false, 0⟩).1 =
      recorder_stop ⟨true, true, true, false, 0⟩ ∧
    (recorder_stop ⟨true, true, true, false, 0⟩).1.started = false ∧
    (recorder_stop ⟨true, true, true, false, 0⟩).2 = 0 ∧
    (consumer_wake_cycle 0 (recorder_start_epilogue
        (recorder_stop ⟨true, true, true, false, 0⟩).1)).consumer_done = true :=
  C3_shutdown_wakeup ⟨true, true, true, false, 0⟩ 0 (by decide)

end Svar
